import Mathlib

/-!
Verification of the ehub backend (Express + Mongoose): user registration
and login, JWT-based auth gate, and tournament creation / idempotent join.
The shallow embedding below follows src/unnamed/part_000 (the server with
per-route try/catch) and src/models/tournament.js.  The user model, the
auth middleware and the bcrypt/jwt library internals are not part of the
provided sources; those pieces are modelled from the spec, as marked on
their doc comments.
-/

namespace Ehub

/-- Modelled from the spec: bcrypt digests (src does not contain the
bcryptjs implementation).  Per spec 4.1 a digest is a salted one-way hash;
we model it as a record carrying the salt and (idealizing the absence of
collisions, i.e. the specs "with overwhelming probability") the hashed
plaintext itself. -/
structure Digest where
  salt : Nat
  pw : String
deriving DecidableEq

/-- Modelled from the spec: bcrypt.hash(plaintext, cost) with an explicit
salt argument standing for the per-call random salt. -/
def bhash (plaintext : String) (salt : Nat) : Digest :=
  { salt := salt, pw := plaintext }

/-- Modelled from the spec: bcrypt.compare(plaintext, digest) returns true
iff the plaintext is the one hashed into the digest. -/
def bverify (plaintext : String) (d : Digest) : Bool :=
  d.pw == plaintext

/-- A stored user record: models/user.js is not in the sources; fields are
taken from the spec data model (unique email, password hash, stable id)
and from the fields the server reads (user._id, user.email, user.password). -/
structure User where
  id : String
  email : String
  password : Digest
deriving DecidableEq

/-- A tournament document, following src/models/tournament.js: name and
description are plain optional String fields (no required marker),
createdBy is a user id, participants a sequence of user ids. -/
structure Tournament where
  id : String
  name : Option String
  description : Option String
  createdBy : String
  participants : List String
deriving DecidableEq

/-- The document store: the Users and Tournaments collections. -/
structure Store where
  users : List User
  tournaments : List Tournament
deriving DecidableEq

/-- Modelled from the spec: a signed JWT (the jsonwebtoken library is not
in the sources).  Per spec 4.2 the token encodes the subject id and email
plus a MAC over that payload under the process-wide secret; the sig
field stands for that MAC (holding the signing secret models
unforgeability: verification under a secret succeeds exactly when the
token was signed under that same secret). -/
structure Token where
  id : String
  email : String
  sig : String
deriving DecidableEq

/-- The caller identity the auth gate decodes from a token and attaches
to the request (req.user with fields id and email). -/
structure Ident where
  id : String
  email : String
deriving DecidableEq

/-- Modelled from the spec: jwt.sign({ id, email }, secret) as called at
src/unnamed/part_000 lines 175-178. -/
def jwtSign (id email secret : String) : Token :=
  { id := id, email := email, sig := secret }

/-- Modelled from the spec: jwt.verify(token, secret) as used by the auth
middleware (middleware/auth.js is not in the sources); it succeeds and
yields the payload iff the signature matches the secret. -/
def jwtVerify (t : Token) (secret : String) : Option Ident :=
  if t.sig == secret then some { id := t.id, email := t.email } else none

/-- An HTTP response as the handlers produce it: a status plus either a
JSON message, a token, or a tournament document. -/
inductive Response where
  | msg (status : Nat) (message : String)
  | token (status : Nat) (t : Token)
  | tourn (status : Nat) (t : Tournament)
deriving DecidableEq

/-- User.findOne({ email }). -/
def findOneUser (s : Store) (email : String) : Option User :=
  s.users.find? (fun u => u.email == email)

/-- POST /api/register (src/unnamed/part_000 lines 150-165): reject with
400 "User exists" when the email is taken, otherwise hash the password
and insert the user.  The salt and the fresh document id are explicit
arguments (they are produced by bcrypt/Mongo at run time). -/
def register (s : Store) (email password : String) (salt : Nat)
    (freshId : String) : Response × Store :=
  match findOneUser s email with
  | some _ => (.msg 400 "User exists", s)
  | none =>
      let u : User := { id := freshId, email := email, password := bhash password salt }
      (.msg 200 "Registered", { s with users := s.users ++ [u] })

/-- POST /api/login (src/unnamed/part_000 lines 168-184): look the user up
by email; if absent or the password does not verify, 400 "Invalid
credentials"; otherwise sign { id, email } under the process secret. -/
def login (s : Store) (email password secret : String) : Response × Store :=
  match findOneUser s email with
  | none => (.msg 400 "Invalid credentials", s)
  | some u =>
      if bverify password u.password then
        (.token 200 (jwtSign u.id u.email secret), s)
      else
        (.msg 400 "Invalid credentials", s)

/-- Mongoose casts a path parameter to ObjectId before querying; a
syntactically valid ObjectId string is 24 hex characters. -/
def isValidObjectId (id : String) : Bool :=
  id.length == 24 && id.toList.all (fun c =>
    c.isDigit || (Char.ofNat 97 ≤ c && c ≤ Char.ofNat 102)
      || (Char.ofNat 65 ≤ c && c ≤ Char.ofNat 70))

/-- Tournament.findById(id): when the id string is not a syntactically
valid ObjectId, Mongoose raises a CastError before the query runs (the
error lands in the catch block of the route); otherwise it returns the first
document with that _id, or none. -/
def findById (s : Store) (id : String) : Except String (Option Tournament) :=
  if isValidObjectId id then
    .ok (s.tournaments.find? (fun t => t.id == id))
  else
    .error "CastError"

/-- tournament.save() on an existing document: persist the new version of
the document with this _id. -/
def saveTournament (s : Store) (t : Tournament) : Store :=
  { s with tournaments := s.tournaments.map (fun u => if u.id == t.id then t else u) }

/-- POST /api/tournaments body handler (src/unnamed/part_000 lines
187-202), after the auth gate: build the document with createdBy =
caller and participants = [caller], save, return it.  The fresh _id is
an explicit argument. -/
def createTournament (s : Store) (callerId : String)
    (name description : Option String) (freshId : String) : Response × Store :=
  let t : Tournament :=
    { id := freshId, name := name, description := description,
      createdBy := callerId, participants := [callerId] }
  (.tourn 200 t, { s with tournaments := s.tournaments ++ [t] })

/-- POST /api/tournaments/:id/join body handler (src/unnamed/part_000
lines 218-233), after the auth gate: findById; 404 when absent; if the
caller is not yet a participant, push and save; return the document
either way.  A CastError from findById falls into the catch block,
which answers 500 "Server error". -/
def joinTournament (s : Store) (id callerId : String) : Response × Store :=
  match findById s id with
  | .error _ => (.msg 500 "Server error", s)
  | .ok none => (.msg 404 "Not found", s)
  | .ok (some t) =>
      if callerId ∈ t.participants then
        (.tourn 200 t, s)
      else
        let t1 : Tournament := { t with participants := t.participants ++ [callerId] }
        (.tourn 200 t1, saveTournament s t1)

/-- How the bearer credential arrives at the gate: absent, syntactically
malformed (wrong scheme or undecodable), or a well-formed token. -/
inductive AuthHeader where
  | missing
  | malformed
  | bearer (t : Token)

/-- Modelled from the spec: the auth middleware (middleware/auth.js is not
in the sources).  Per spec 4.3 it extracts the Bearer credential from the
authorization header, verifies it, and on any extraction or verification
failure answers 401 without invoking the downstream handler; on success
it attaches the decoded identity and runs the handler. -/
def withAuth (secret : String) (handler : Ident → Store → Response × Store)
    (hdr : AuthHeader) (s : Store) : Response × Store :=
  match hdr with
  | .missing => (.msg 401 "Unauthorized", s)
  | .malformed => (.msg 401 "Unauthorized", s)
  | .bearer t =>
      match jwtVerify t secret with
      | none => (.msg 401 "Unauthorized", s)
      | some ident => handler ident s

/-- Whether the gate rejects this credential under this secret. -/
def authFailed (secret : String) (hdr : AuthHeader) : Bool :=
  match hdr with
  | .missing => true
  | .malformed => true
  | .bearer t => (jwtVerify t secret).isNone

/-- The full protected POST /api/tournaments route: auth gate then the
create handler. -/
def createRoute (secret : String) (hdr : AuthHeader)
    (name description : Option String) (freshId : String) (s : Store) :
    Response × Store :=
  withAuth secret (fun ident s => createTournament s ident.id name description freshId) hdr s

/-- The full protected POST /api/tournaments/:id/join route: auth gate
then the join handler. -/
def joinRoute (secret : String) (hdr : AuthHeader) (id : String) (s : Store) :
    Response × Store :=
  withAuth secret (fun ident s => joinTournament s id ident.id) hdr s

/-- Iterating the join handler n times from a store (the store after the
n-th call; the response of call n+1 is read off with joinTournament). -/
def iterateJoin (s : Store) (id callerId : String) : Nat → Store
  | 0 => s
  | n + 1 => (joinTournament (iterateJoin s id callerId n) id callerId).2

/-- Applying a sequence of join operations (tournament id, caller id) to
the store: joins are the only operations in scope that mutate an
existing tournament. -/
def applyJoins (s : Store) (ops : List (String × String)) : Store :=
  ops.foldl (fun s p => (joinTournament s p.1 p.2).2) s

/-- Number of stored users carrying a given email. -/
def countUsersWithEmail (s : Store) (email : String) : Nat :=
  (s.users.filter (fun u => u.email == email)).length

/-- A concrete stored tournament id (24 hex characters). -/
def demoTid : String := "0123456789abcdef01234567"

/-- A second, unused concrete id (24 hex characters). -/
def demoTid2 : String := "aaaaaaaaaaaaaaaaaaaaaaaa"

/-- A concrete registered user. -/
def demoUser : User :=
  { id := "u1", email := "a@x.com", password := bhash "pw1" 7 }

/-- A concrete stored tournament owned by demoUser. -/
def demoT : Tournament :=
  { id := demoTid, name := some "Cup", description := some "desc",
    createdBy := "u1", participants := ["u1"] }

/-- A concrete store holding demoUser and demoT. -/
def demoStore : Store := { users := [demoUser], tournaments := [demoT] }

/-- The empty store. -/
def emptyStore : Store := { users := [], tournaments := [] }

section Lemmas

/-- Mapping an id-preserving transformation over a list commutes with
looking up the first element with a given id. -/
lemma find?_map_of_id_eq (f : Tournament → Tournament)
    (hf : ∀ u, (f u).id = u.id) (idStr : String) (l : List Tournament) :
    (l.map f).find? (fun u => u.id == idStr)
      = (l.find? (fun u => u.id == idStr)).map f := by
  induction l with
  | nil => rfl
  | cons a l ih =>
    rw [List.map_cons]
    by_cases hc : (a.id == idStr) = true
    · have hcf : ((f a).id == idStr) = true := by rw [hf a]; exact hc
      simp [List.find?_cons, hcf, hc]
    · have hc2 : (a.id == idStr) = false := by simpa using hc
      have hcf : ((f a).id == idStr) = false := by rw [hf a]; exact hc2
      simp [List.find?_cons, hcf, hc2, ih]

/-- If the first list holds no match, lookup continues in the second. -/
lemma find?_append_of_none {α : Type} (p : α → Bool) (l1 l2 : List α)
    (h : l1.find? p = none) : (l1 ++ l2).find? p = l2.find? p := by
  induction l1 with
  | nil => rfl
  | cons a l ih =>
    by_cases hpa : p a = true
    · simp [List.find?_cons, hpa] at h
    · have hpa2 : p a = false := by simpa using hpa
      simp only [List.find?_cons, hpa2] at h
      simp only [List.cons_append, List.find?_cons, hpa2]
      exact ih h

/-- Unpacking a successful findById: the id is a valid ObjectId, the
lookup hit, and the document carries that id. -/
lemma findById_ok_some {s : Store} {idStr : String} {t : Tournament}
    (h : findById s idStr = Except.ok (some t)) :
    isValidObjectId idStr = true
      ∧ s.tournaments.find? (fun u => u.id == idStr) = some t
      ∧ t.id = idStr := by
  unfold findById at h
  by_cases hv : isValidObjectId idStr = true
  · rw [if_pos hv] at h
    have h2 : s.tournaments.find? (fun u => u.id == idStr) = some t :=
      Except.ok.inj h
    exact ⟨hv, h2, by simpa using List.find?_some h2⟩
  · rw [if_neg hv] at h
    exact absurd h (by simp)

/-- Looking an id up after saving some document: the hit is the old hit,
replaced when its id coincides with the id of the saved document. -/
lemma findById_saveTournament {s : Store} {idStr : String} {t : Tournament}
    (t1 : Tournament) (h : findById s idStr = Except.ok (some t)) :
    findById (saveTournament s t1) idStr
      = Except.ok (some (if t.id == t1.id then t1 else t)) := by
  obtain ⟨hv, hfind, -⟩ := findById_ok_some h
  have hpres : ∀ u : Tournament,
      ((fun u => if u.id == t1.id then t1 else u) u).id = u.id := by
    intro u
    by_cases hu : (u.id == t1.id) = true
    · simp only [hu, if_true]
      exact (eq_of_beq hu).symm
    · have hu2 : (u.id == t1.id) = false := by simpa using hu
      simp only [hu2]
      rfl
  unfold findById saveTournament
  rw [if_pos hv]
  simp only
  rw [find?_map_of_id_eq _ hpres idStr s.tournaments, hfind]
  rfl

/-- Joining a tournament one already participates in answers 200 with the
unchanged document and does not touch the store. -/
lemma joinTournament_noop {s : Store} {idStr c : String} {t : Tournament}
    (hfind : findById s idStr = Except.ok (some t))
    (hc : c ∈ t.participants) :
    joinTournament s idStr c = (.tourn 200 t, s) := by
  unfold joinTournament
  rw [hfind]
  simp [hc]

/-- Joining as a non-participant appends the caller and saves. -/
lemma joinTournament_append {s : Store} {idStr c : String} {t : Tournament}
    (hfind : findById s idStr = Except.ok (some t))
    (hc : c ∉ t.participants) :
    joinTournament s idStr c
      = (.tourn 200 { t with participants := t.participants ++ [c] },
         saveTournament s { t with participants := t.participants ++ [c] }) := by
  unfold joinTournament
  rw [hfind]
  simp [hc]

/-- The post-state of one join call on a stored tournament whose
participants hold the caller at most once: the call answers 200 with a
document holding the caller exactly once, that document is what the id
now looks up to, and a repeat call is a strict no-op returning the same
response and store. -/
lemma joinTournament_post {s : Store} {idStr c : String} {t : Tournament}
    (hfind : findById s idStr = Except.ok (some t))
    (hcount : t.participants.count c ≤ 1) :
    ∃ t1, (joinTournament s idStr c).1 = .tourn 200 t1
      ∧ findById (joinTournament s idStr c).2 idStr = Except.ok (some t1)
      ∧ t1.participants.count c = 1
      ∧ c ∈ t1.participants
      ∧ joinTournament (joinTournament s idStr c).2 idStr c
          = joinTournament s idStr c := by
  by_cases hc : c ∈ t.participants
  · refine ⟨t, ?_, ?_, ?_, hc, ?_⟩
    · rw [joinTournament_noop hfind hc]
    · rw [joinTournament_noop hfind hc]; exact hfind
    · have h1 : 0 < t.participants.count c := List.count_pos_iff.mpr hc
      omega
    · rw [joinTournament_noop hfind hc, joinTournament_noop hfind hc]
  · set t1 : Tournament := { t with participants := t.participants ++ [c] } with ht1
    have hj := joinTournament_append hfind hc
    have hfind1 : findById (joinTournament s idStr c).2 idStr
        = Except.ok (some t1) := by
      rw [hj]
      have := findById_saveTournament (t := t) t1 hfind
      simpa [ht1] using this
    have hmem : c ∈ t1.participants := by simp [ht1]
    refine ⟨t1, by rw [hj], hfind1, ?_, hmem, ?_⟩
    · have h0 : t.participants.count c = 0 := List.count_eq_zero.mpr hc
      simp [ht1, List.count_append, h0]
    · rw [joinTournament_noop hfind1 hmem, hj]

/-- A join (by anyone, on any id) never removes a participant from any
stored tournament. -/
lemma joinTournament_preserves_mem {s : Store} {tid : String} {t : Tournament}
    (jid c x : String)
    (hfind : findById s tid = Except.ok (some t))
    (hx : x ∈ t.participants) :
    ∃ t2, findById (joinTournament s jid c).2 tid = Except.ok (some t2)
      ∧ x ∈ t2.participants := by
  rcases hj : findById s jid with e | ot
  · refine ⟨t, ?_, hx⟩
    unfold joinTournament
    rw [hj]
    exact hfind
  · rcases ot with - | tj
    · refine ⟨t, ?_, hx⟩
      unfold joinTournament
      rw [hj]
      exact hfind
    · by_cases hc : c ∈ tj.participants
      · refine ⟨t, ?_, hx⟩
        rw [joinTournament_noop hj hc]
        exact hfind
      · rw [joinTournament_append hj hc]
        set tj1 : Tournament := { tj with participants := tj.participants ++ [c] }
          with htj1
        have hsave := findById_saveTournament (t := t) tj1 hfind
        by_cases hid : (t.id == tj1.id) = true
        · have hteq : t = tj := by
            have h1 : t.id = tid := (findById_ok_some hfind).2.2
            have h2 : tj.id = jid := (findById_ok_some hj).2.2
            have h3 : tid = jid := by
              rw [← h1, ← h2]
              simpa [htj1] using eq_of_beq hid
            rw [h3] at hfind
            rw [hfind] at hj
            exact Option.some.inj (Except.ok.inj hj)
          refine ⟨tj1, ?_, ?_⟩
          · rw [hsave, if_pos hid]
          · rw [htj1]
            simp only [List.mem_append]
            exact Or.inl (hteq ▸ hx)
        · have hid2 : (t.id == tj1.id) = false := by simpa using hid
          refine ⟨t, ?_, hx⟩
          rw [hsave, hid2]
          rfl

/-- A sequence of joins never removes a participant from any stored
tournament. -/
lemma applyJoins_preserves_mem (ops : List (String × String)) :
    ∀ (s : Store) (tid x : String) (t : Tournament),
      findById s tid = Except.ok (some t) → x ∈ t.participants →
      ∃ t2, findById (applyJoins s ops) tid = Except.ok (some t2)
        ∧ x ∈ t2.participants := by
  induction ops with
  | nil => exact fun s tid x t h hx => ⟨t, h, hx⟩
  | cons op ops ih =>
    intro s tid x t h hx
    obtain ⟨t2, h2, hx2⟩ := joinTournament_preserves_mem op.1 op.2 x h hx
    simpa [applyJoins] using ih (joinTournament s op.1 op.2).2 tid x t2 h2 hx2

end Lemmas

/-- Claim C3: verifying a token produced by issue(subjectId, email) under
the same process-wide secret succeeds and yields back exactly that
subjectId and email; login with correct credentials returns a token whose
verified claims equal the identifier and email. -/
theorem C3_token_roundtrip (sid em secret : String) (s : Store)
    (email pw : String) (u : User)
    (hu : findOneUser s email = some u)
    (hok : bverify pw u.password = true) :
    jwtVerify (jwtSign sid em secret) secret = some { id := sid, email := em }
    ∧ login s email pw secret = (.token 200 (jwtSign u.id u.email secret), s)
    ∧ jwtVerify (jwtSign u.id u.email secret) secret
        = some { id := u.id, email := u.email } := by
  refine ⟨by simp [jwtVerify, jwtSign], ?_, by simp [jwtVerify, jwtSign]⟩
  unfold login
  rw [hu]
  simp [hok]

/-- Witness for C3 at concrete inputs. -/
theorem C3_token_roundtrip_witness :
    jwtVerify (jwtSign "s1" "e@x.com" "k") "k" = some { id := "s1", email := "e@x.com" }
    ∧ login demoStore "a@x.com" "pw1" "k"
        = (.token 200 (jwtSign "u1" "a@x.com" "k"), demoStore)
    ∧ jwtVerify (jwtSign "u1" "a@x.com" "k") "k"
        = some { id := "u1", email := "a@x.com" } :=
  C3_token_roundtrip "s1" "e@x.com" "k" demoStore "a@x.com" "pw1" demoUser
    (by rfl) (by decide)

/-- Claim C7: joining a nonexistent tournament id answers 404 "Not found"
and leaves the whole store (users and tournaments) unchanged. -/
theorem C7_join_notfound (s : Store) (idStr c : String)
    (h : findById s idStr = Except.ok none) :
    joinTournament s idStr c = (.msg 404 "Not found", s) := by
  unfold joinTournament
  rw [h]

/-- Witness for C7 at concrete inputs. -/
theorem C7_join_notfound_witness :
    joinTournament demoStore demoTid2 "u1" = (.msg 404 "Not found", demoStore) :=
  C7_join_notfound demoStore demoTid2 "u1" (by rfl)

/-- Claim C8: bcrypt verify(p, hash(p)) is true; for p1 different from p2,
verify(p2, hash(p1)) is false; verify holds exactly of the hashed
plaintext. -/
theorem C8_hash_verify (p p1 p2 q : String) (salt salt1 : Nat) :
    bverify p (bhash p salt) = true
    ∧ (p1 ≠ p2 → bverify p2 (bhash p1 salt1) = false)
    ∧ (bverify q (bhash p salt) = true ↔ q = p) := by
  refine ⟨?_, fun h => ?_, ?_⟩
  · show (p == p) = true
    exact beq_self_eq_true p
  · show (p1 == p2) = false
    exact beq_eq_false_iff_ne.mpr h
  · show ((p == q) = true ↔ q = p)
    rw [beq_iff_eq]
    exact eq_comm

/-- Witness for C8 at concrete inputs. -/
theorem C8_hash_verify_witness :
    bverify "pw1" (bhash "pw1" 7) = true
    ∧ bverify "pw2" (bhash "pw1" 7) = false :=
  ⟨(C8_hash_verify "pw1" "a" "b" "q" 7 7).1,
   (C8_hash_verify "x" "pw1" "pw2" "q" 7 7).2.1 (by decide)⟩

/-- Claim C9: a join whose id is not a syntactically valid ObjectId makes
the lookup raise (CastError), so the route answers the generic 500 server
error rather than 404, and the store is unchanged. -/
theorem C9_join_invalid_id (s : Store) (idStr c : String)
    (h : isValidObjectId idStr = false) :
    joinTournament s idStr c = (.msg 500 "Server error", s)
    ∧ (joinTournament s idStr c).1 ≠ .msg 404 "Not found" := by
  have hf : findById s idStr = Except.error "CastError" := by
    unfold findById
    rw [h]
    rfl
  have hj : joinTournament s idStr c = (.msg 500 "Server error", s) := by
    unfold joinTournament
    rw [hf]
  refine ⟨hj, ?_⟩
  rw [hj]
  intro hcontra
  exact absurd (Response.msg.inj hcontra).1 (by decide)

/-- Witness for C9 at concrete inputs. -/
theorem C9_join_invalid_id_witness :
    joinTournament demoStore "nope" "u1" = (.msg 500 "Server error", demoStore)
    ∧ (joinTournament demoStore "nope" "u1").1 ≠ .msg 404 "Not found" :=
  C9_join_invalid_id demoStore "nope" "u1" (by decide)

/-- Claim C10: create performs no input validation: for any authenticated
caller, any name/description (absent or empty included) is stored as
given and the request succeeds with 200. -/
theorem C10_create_no_validation (s : Store) (secret : String) (tok : Token)
    (ident : Ident) (name description : Option String) (fid : String)
    (hv : jwtVerify tok secret = some ident) :
    ∃ t, createRoute secret (.bearer tok) name description fid s
        = (.tourn 200 t, { s with tournaments := s.tournaments ++ [t] })
      ∧ t.name = name ∧ t.description = description ∧ t.createdBy = ident.id := by
  simp only [createRoute, withAuth, hv, createTournament]
  exact ⟨_, rfl, rfl, rfl, rfl⟩

/-- Witness for C10 at concrete inputs (absent name and description). -/
theorem C10_create_no_validation_witness :
    ∃ t, createRoute "k" (.bearer (jwtSign "u1" "a@x.com" "k")) none none
          demoTid2 demoStore
        = (.tourn 200 t,
           { demoStore with tournaments := demoStore.tournaments ++ [t] })
      ∧ t.name = none ∧ t.description = none ∧ t.createdBy = "u1" :=
  C10_create_no_validation demoStore "k" (jwtSign "u1" "a@x.com" "k")
    { id := "u1", email := "a@x.com" } none none demoTid2 (by rfl)

/-- Claim C4: when the bearer credential is missing, malformed, or fails
verification, every protected route (create, join, and any handler behind
the gate) answers 401 with the store untouched — the downstream handler is
never invoked; on success the decoded identity is handed to the handler. -/
theorem C4_auth_gate (secret : String) (hdr : AuthHeader) (s : Store) :
    (authFailed secret hdr = true →
      (∀ handler, withAuth secret handler hdr s = (.msg 401 "Unauthorized", s))
      ∧ (∀ name description fid,
          createRoute secret hdr name description fid s
            = (.msg 401 "Unauthorized", s))
      ∧ (∀ idStr, joinRoute secret hdr idStr s = (.msg 401 "Unauthorized", s)))
    ∧ (∀ tok ident, hdr = .bearer tok → jwtVerify tok secret = some ident →
        ∀ handler, withAuth secret handler hdr s = handler ident s) := by
  constructor
  · intro hfail
    have hall : ∀ handler, withAuth secret handler hdr s
        = (.msg 401 "Unauthorized", s) := by
      intro handler
      cases hdr with
      | missing => rfl
      | malformed => rfl
      | bearer tok =>
          have hnone : jwtVerify tok secret = none := by
            simpa [authFailed, Option.isNone_iff_eq_none] using hfail
          simp [withAuth, hnone]
    exact ⟨hall, fun name description fid => hall _, fun idStr => hall _⟩
  · intro tok ident hhdr hv handler
    subst hhdr
    simp [withAuth, hv]

/-- Witness for C4 at concrete inputs. -/
theorem C4_auth_gate_witness :
    joinRoute "k" AuthHeader.missing demoTid demoStore
      = (.msg 401 "Unauthorized", demoStore) :=
  ((C4_auth_gate "k" AuthHeader.missing demoStore).1 (by rfl)).2.2 demoTid

/-- Claim C5: with no user yet stored under an email, the first
registration succeeds (200 "Registered") and stores exactly one user with
that email; registering the same email again answers 400 "User exists"
and changes nothing. -/
theorem C5_duplicate_register (s : Store) (email pw1 pw2 : String)
    (salt1 salt2 : Nat) (id1 id2 : String)
    (h0 : countUsersWithEmail s email = 0) :
    (register s email pw1 salt1 id1).1 = .msg 200 "Registered"
    ∧ countUsersWithEmail (register s email pw1 salt1 id1).2 email = 1
    ∧ register (register s email pw1 salt1 id1).2 email pw2 salt2 id2
        = (.msg 400 "User exists", (register s email pw1 salt1 id1).2) := by
  have hnone : ∀ u ∈ s.users, ¬ (u.email == email) = true := by
    have := List.length_eq_zero.mp h0
    exact List.filter_eq_nil_iff.mp this
  have hfind : findOneUser s email = none :=
    List.find?_eq_none.mpr hnone
  have hreg : register s email pw1 salt1 id1
      = (.msg 200 "Registered",
         { s with users := s.users
             ++ [{ id := id1, email := email, password := bhash pw1 salt1 }] }) := by
    unfold register
    rw [hfind]
  set u1 : User := { id := id1, email := email, password := bhash pw1 salt1 }
    with hu1
  have hmail : (u1.email == email) = true := by simp [hu1]
  refine ⟨by rw [hreg], ?_, ?_⟩
  · rw [hreg]
    unfold countUsersWithEmail
    simp only [List.filter_append]
    rw [List.filter_eq_nil_iff.mpr hnone]
    simp [hmail]
  · have hfind2 : findOneUser (register s email pw1 salt1 id1).2 email
        = some u1 := by
      rw [hreg]
      unfold findOneUser
      simp only
      rw [find?_append_of_none _ _ _ hfind]
      simp [List.find?_cons, hmail]
    have hstep : ∀ s2 : Store, findOneUser s2 email = some u1 →
        register s2 email pw2 salt2 id2 = (.msg 400 "User exists", s2) := by
      intro s2 h2
      unfold register
      rw [h2]
    exact hstep _ hfind2

/-- Witness for C5 at concrete inputs. -/
theorem C5_duplicate_register_witness :
    (register emptyStore "a@x.com" "pw1" 7 "u1").1 = .msg 200 "Registered"
    ∧ countUsersWithEmail (register emptyStore "a@x.com" "pw1" 7 "u1").2 "a@x.com" = 1
    ∧ register (register emptyStore "a@x.com" "pw1" 7 "u1").2 "a@x.com" "pw2" 9 "u2"
        = (.msg 400 "User exists", (register emptyStore "a@x.com" "pw1" 7 "u1").2) :=
  C5_duplicate_register emptyStore "a@x.com" "pw1" "pw2" 7 9 "u1" "u2" (by rfl)

/-- Claim C6: login with a wrong password answers 400 "Invalid
credentials" with no token, identically to login with an unknown email —
the response does not reveal which part of the credential was wrong. -/
theorem C6_login_failure_uniform (s : Store) (secret emailA emailB pw : String)
    (u : User)
    (hA : findOneUser s emailA = some u)
    (hwrong : bverify pw u.password = false)
    (hB : findOneUser s emailB = none) :
    login s emailA pw secret = (.msg 400 "Invalid credentials", s)
    ∧ login s emailB pw secret = (.msg 400 "Invalid credentials", s)
    ∧ login s emailA pw secret = login s emailB pw secret
    ∧ (∀ st tok, (login s emailA pw secret).1 ≠ .token st tok) := by
  have h1 : login s emailA pw secret = (.msg 400 "Invalid credentials", s) := by
    unfold login
    rw [hA]
    simp [hwrong]
  have h2 : login s emailB pw secret = (.msg 400 "Invalid credentials", s) := by
    unfold login
    rw [hB]
  refine ⟨h1, h2, by rw [h1, h2], ?_⟩
  intro st tok hcontra
  rw [h1] at hcontra
  exact Response.noConfusion hcontra

/-- Witness for C6 at concrete inputs. -/
theorem C6_login_failure_uniform_witness :
    login demoStore "a@x.com" "wrong" "k" = (.msg 400 "Invalid credentials", demoStore)
    ∧ login demoStore "b@x.com" "wrong" "k" = (.msg 400 "Invalid credentials", demoStore)
    ∧ login demoStore "a@x.com" "wrong" "k" = login demoStore "b@x.com" "wrong" "k"
    ∧ (∀ st tok, (login demoStore "a@x.com" "wrong" "k").1 ≠ .token st tok) :=
  C6_login_failure_uniform demoStore "k" "a@x.com" "b@x.com" "wrong" demoUser
    (by rfl) (by decide) (by rfl)

/-- Claim C1: on a stored tournament whose participants hold the caller
at most once (the data-model invariant), joining N+1 times leaves the
caller in participants exactly once; the first call by a non-member
appends the caller at the end and saves; every later call mutates nothing
(the store after N+1 calls is the store after the first) and returns the
same 200 Tournament snapshot as the first call. -/
theorem C1_join_idempotent (s : Store) (idStr c : String) (t : Tournament)
    (hfind : findById s idStr = Except.ok (some t))
    (hcount : t.participants.count c ≤ 1) :
    (∃ t1, (joinTournament s idStr c).1 = .tourn 200 t1)
    ∧ (c ∉ t.participants →
      joinTournament s idStr c
        = (.tourn 200 { t with participants := t.participants ++ [c] },
           saveTournament s { t with participants := t.participants ++ [c] }))
    ∧ (∀ n, iterateJoin s idStr c (n + 1) = (joinTournament s idStr c).2)
    ∧ (∀ n, ∃ tn,
        findById (iterateJoin s idStr c (n + 1)) idStr = Except.ok (some tn)
        ∧ tn.participants.count c = 1)
    ∧ (∀ n, joinTournament (iterateJoin s idStr c (n + 1)) idStr c
        = joinTournament s idStr c) := by
  obtain ⟨t1, hr, hf1, hcnt, hmem, hrep⟩ := joinTournament_post hfind hcount
  have hiter : ∀ n, iterateJoin s idStr c (n + 1)
      = (joinTournament s idStr c).2 := by
    intro n
    induction n with
    | zero => rfl
    | succ n ih =>
        show (joinTournament (iterateJoin s idStr c (n + 1)) idStr c).2
          = (joinTournament s idStr c).2
        rw [ih, hrep]
  refine ⟨⟨t1, hr⟩, fun hc => joinTournament_append hfind hc, hiter, ?_, ?_⟩
  · intro n
    rw [hiter n]
    exact ⟨t1, hf1, hcnt⟩
  · intro n
    rw [hiter n]
    exact hrep

/-- Witness for C1 at concrete inputs: a second join by the stored owner
is a strict no-op. -/
theorem C1_join_idempotent_witness :
    ∃ tn, findById (iterateJoin demoStore demoTid "u1" 2) demoTid
        = Except.ok (some tn)
      ∧ tn.participants.count "u1" = 1 :=
  (C1_join_idempotent demoStore demoTid "u1" demoT (by rfl) (by decide)).2.2.2.1 1

/-- Claim C2: create builds a tournament owned by the caller with
participants exactly [caller], so the owner is a participant exactly once
right after creation, and stays a participant after any sequence of
subsequent join operations (joins never remove entries). -/
theorem C2_create_ownership (s : Store) (c : String)
    (name description : Option String) (fid : String)
    (hv : isValidObjectId fid = true)
    (hfresh : ∀ t ∈ s.tournaments, (t.id == fid) = false) :
    ∃ t, createTournament s c name description fid
        = (.tourn 200 t, { s with tournaments := s.tournaments ++ [t] })
      ∧ t.createdBy = c
      ∧ t.participants = [c]
      ∧ t.participants.count c = 1
      ∧ (∀ ops, ∃ t2,
          findById (applyJoins (createTournament s c name description fid).2 ops)
              fid
            = Except.ok (some t2)
          ∧ c ∈ t2.participants) := by
  set t0 : Tournament :=
    { id := fid, name := name, description := description,
      createdBy := c, participants := [c] } with ht0
  have hcreate : createTournament s c name description fid
      = (.tourn 200 t0, { s with tournaments := s.tournaments ++ [t0] }) := rfl
  have hfind0 : findById (createTournament s c name description fid).2 fid
      = Except.ok (some t0) := by
    rw [hcreate]
    unfold findById
    rw [if_pos hv]
    simp only
    rw [find?_append_of_none _ _ _
      (List.find?_eq_none.mpr (by simpa using hfresh))]
    simp [List.find?_cons, ht0]
  refine ⟨t0, hcreate, rfl, rfl, by simp [ht0], ?_⟩
  intro ops
  exact applyJoins_preserves_mem ops _ fid c t0 hfind0 (by simp [ht0])

/-- Witness for C2 at concrete inputs, including one subsequent join. -/
theorem C2_create_ownership_witness :
    ∃ t2, findById
        (applyJoins (createTournament demoStore "u1" (some "Cup2") (some "d2")
            demoTid2).2
          [(demoTid2, "u2")])
        demoTid2
      = Except.ok (some t2)
      ∧ "u1" ∈ t2.participants :=
  (C2_create_ownership demoStore "u1" (some "Cup2") (some "d2") demoTid2
      (by decide) (by decide)).elim
    (fun t h => h.2.2.2.2 [(demoTid2, "u2")])

end Ehub
